import Mathlib

/-!
Shallow embedding of `src/api/onnxruntime/src/client.rs` (the `ipnis`
onnxruntime client): the session cache/loader (`load_session`), the
inference dispatcher (`call_raw`) and the model introspector
(`load_model`), with the external collaborators (byte store, ONNX
engine, descriptor conversion) modelled as parameters.

The mutex-guarded `sessions: Mutex<HashMap<Path, Arc<Session>>>` table is
embedded as an explicit association list threaded through each call; the
mutex is held across the whole body of `load_session` in the source, so
each call body is atomic and concurrent executions are interleavings of
whole calls.
-/

namespace Ipnis

/-- Content address: opaque identifier plus declared byte length
(`ipis::path::Path { value, len }`). -/
structure Path where
  value : Nat
  len : Nat
deriving DecidableEq, Repr

/-- Opaque inference handle identity (`Arc<Session>`); two equal values
denote the same shared underlying session object. -/
abbrev Session := Nat

/-- Raw engine output payload: the `OrtOwnedTensor<f32, IxDyn>` numeric
array, modelled as an opaque sequence (no arithmetic is performed on it;
`call_raw` passes it through unchanged). -/
abbrev RawOutput := List Int

/-- Dynamic tensor payload (`ipnis_common::tensor::dynamic::DynamicTensorData`);
only the constructors relevant here, with at least one non-F32 alternative
so that statements about the produced constructor are not vacuous. -/
inductive DynamicTensorData where
  | U8 : List Nat → DynamicTensorData
  | F32 : RawOutput → DynamicTensorData
deriving DecidableEq, Repr

/-- Named tensor (`ipnis_common::tensor::Tensor { name, data }`). -/
structure Tensor where
  name : String
  data : DynamicTensorData
deriving DecidableEq, Repr

/-- Engine-native input/output slot descriptor (onnxruntime `Input`/`Output`). -/
structure NativeDescriptor where
  name : String
  dims : List (Option Nat)
  ty : Nat
deriving DecidableEq, Repr

/-- Portable tensor slot descriptor (`ipnis_common` shape: name, dims,
element type). -/
structure TensorDescriptor where
  name : String
  dims : List Nat
  ty : Nat
deriving DecidableEq, Repr

/-- Model descriptor (`ipnis_common::model::Model { path, inputs, outputs }`). -/
structure Model where
  path : Path
  inputs : List TensorDescriptor
  outputs : List TensorDescriptor
deriving DecidableEq, Repr

/-- Error kinds of the client, following the spec taxonomy for the
distinct failure sites in the source (`anyhow` errors in Rust).
`lengthAssertPanic` stands for the `assert_eq!` panic in `load_session`,
which is not an `anyhow` error but an abort of the call. -/
inductive ClientError where
  | transportError
  | integrityError
  | engineBuildError
  | engineRunError
  | descriptorConversionError
  | lengthAssertPanic
deriving DecidableEq, Repr

/-- Resolved client configuration (`ClientConfig`), consumed at build time. -/
structure ClientConfig where
  optimization_level : Nat
  number_threads : Nat
  log_level : Nat
deriving DecidableEq, Repr

/-- A byte stream returned by the byte store: reading the u64 length
word and reading the remaining payload to completion are each fallible
(`recv.read_u64().await?`, `recv.read_to_end(&mut buf).await?`). -/
structure ByteStream where
  read_u64 : Except ClientError Nat
  read_to_end : Except ClientError (List Nat)

/-- External collaborators of the client, as one record of functions:
the byte store (`self.ipiis.get_raw`), the engine session builder chain
(`new_session_builder()? ... with_model_from_memory(&bytes)?`, collapsed
into one fallible build from bytes and configuration), session
introspection (`session.inputs` / `session.outputs`), the forward pass
(`session.run(&inputs)?`, typed to return `f32` arrays), and the
engine-native-to-portable descriptor conversion (`TryInto::try_into`,
defined in the `ipnis_common` crate outside `src/`, hence a parameter). -/
structure ClientEnv where
  config : ClientConfig
  get_raw : Path → Except ClientError ByteStream
  build : List Nat → ClientConfig → Except ClientError Session
  session_inputs : Session → List NativeDescriptor
  session_outputs : Session → List NativeDescriptor
  run : Session → List Tensor → Except ClientError (List RawOutput)
  conv : NativeDescriptor → Except ClientError TensorDescriptor

/-- The session table (`HashMap<Path, Arc<Session>>`), embedded as an
association list; `insertTable` prepends, and `lookupTable` takes the
first hit, matching `HashMap::insert` replacement semantics. -/
abbrev SessionTable := List (Path × Session)

/-- Lookup in the session table (`sessions.get(path)`). -/
def lookupTable : SessionTable → Path → Option Session
  | [], _ => none
  | (q, s) :: rest, p => if q = p then some s else lookupTable rest p

/-- Insertion into the session table (`sessions.insert(*path, session.clone())`). -/
def insertTable (st : SessionTable) (p : Path) (s : Session) : SessionTable :=
  (p, s) :: st

/-- The session cache / loader, `IpnisClientInner::load_session`:
under the table lock, return the cached handle on a hit; on a miss,
fetch the stream, read and validate the u64 length word against
`path.len` (`bail!("failed to validate the length")`), read the payload
(`assert_eq!(buf.len(), path.len as usize)` modelled as
`lengthAssertPanic`), build the engine session, insert it and return it.
The table is threaded explicitly; every early `?` return leaves it as
received. -/
def load_session (env : ClientEnv) (path : Path) (st : SessionTable) :
    Except ClientError Session × SessionTable :=
  match lookupTable st path with
  | some session => (.ok session, st)
  | none =>
    match env.get_raw path with
    | .error e => (.error e, st)
    | .ok recv =>
      match recv.read_u64 with
      | .error e => (.error e, st)
      | .ok len =>
        if len ≠ path.len then (.error .integrityError, st)
        else
          match recv.read_to_end with
          | .error e => (.error e, st)
          | .ok buf =>
            if buf.length ≠ path.len then (.error .lengthAssertPanic, st)
            else
              match env.build buf env.config with
              | .error e => (.error e, st)
              | .ok session => (.ok session, insertTable st path session)

/-- Instrumented mirror of `load_session` recording the byte buffer
handed to the engine session builder, when the build step is reached
(`with_model_from_memory(&model_bytes)`): same control flow as
`load_session`, value `none` on every path that does not call the builder. -/
def build_input (env : ClientEnv) (path : Path) (st : SessionTable) :
    Option (List Nat) :=
  match lookupTable st path with
  | some _ => none
  | none =>
    match env.get_raw path with
    | .error _ => none
    | .ok recv =>
      match recv.read_u64 with
      | .error _ => none
      | .ok len =>
        if len ≠ path.len then none
        else
          match recv.read_to_end with
          | .error _ => none
          | .ok buf =>
            if buf.length ≠ path.len then none
            else some buf

/-- Instrumented mirror of `load_session` recording whether the
defensive `assert_eq!(buf.len(), path.len as usize)` fires: same control
flow, `true` exactly on the path where the fully-read buffer length
differs from the declared length. -/
def assert_fires (env : ClientEnv) (path : Path) (st : SessionTable) : Bool :=
  match lookupTable st path with
  | some _ => false
  | none =>
    match env.get_raw path with
    | .error _ => false
    | .ok recv =>
      match recv.read_u64 with
      | .error _ => false
      | .ok len =>
        if len ≠ path.len then false
        else
          match recv.read_to_end with
          | .error _ => false
          | .ok buf => if buf.length ≠ path.len then true else false

/-- Number of byte-store fetches (`self.ipiis.get_raw` calls) performed
by one `load_session` call: zero on a table hit, one on a miss (the miss
arm of the `match` calls `get_raw` exactly once, unconditionally). -/
def load_session_fetches (path : Path) (st : SessionTable) : Nat :=
  match lookupTable st path with
  | some _ => 0
  | none => 1

/-- Resulting session table of one `load_session` call (second component). -/
def load_session_state (env : ClientEnv) (path : Path) (st : SessionTable) :
    SessionTable :=
  (load_session env path st).2

/-- Run a sequence of `load_session` calls (an interleaving of callers,
each call body atomic under the table mutex), threading the table. -/
def run_calls (env : ClientEnv) (st : SessionTable) : List Path → SessionTable
  | [] => st
  | p :: ps => run_calls env (load_session_state env p st) ps

/-- The inference dispatcher, `Ipnis::call_raw` for `IpnisClientInner`:
load (or reuse) the session for `model.path`, execute the forward pass
requesting `f32`-typed outputs, then zip the declared output descriptors
with the raw outputs positionally, naming each raw output after its
descriptor and wrapping it as `DynamicTensorData::F32`. -/
def call_raw (env : ClientEnv) (model : Model) (inputs : List Tensor)
    (st : SessionTable) : Except ClientError (List Tensor) × SessionTable :=
  match load_session env model.path st with
  | (.error e, st') => (.error e, st')
  | (.ok session, st') =>
    match env.run session inputs with
    | .error e => (.error e, st')
    | .ok outputs =>
      (.ok ((model.outputs.zip outputs).map fun po =>
        { name := po.1.name, data := .F32 po.2 }), st')

/-- Short-circuiting conversion of a list of engine-native descriptors
(`.iter().map(TryInto::try_into).collect::<Result<_>>()?`): the first
failing slot aborts the whole collection. -/
def collectResults (conv : NativeDescriptor → Except ClientError TensorDescriptor) :
    List NativeDescriptor → Except ClientError (List TensorDescriptor)
  | [] => .ok []
  | d :: ds =>
    match conv d with
    | .error e => .error e
    | .ok t =>
      match collectResults conv ds with
      | .error e => .error e
      | .ok ts => .ok (t :: ts)

/-- The model introspector, `Ipnis::load_model`: load (or reuse) the
session, convert its declared inputs then outputs to portable form
(short-circuiting on the first failure, as the two `collect` calls do),
and assemble the `Model` with the argument path. -/
def load_model (env : ClientEnv) (path : Path) (st : SessionTable) :
    Except ClientError Model × SessionTable :=
  match load_session env path st with
  | (.error e, st') => (.error e, st')
  | (.ok session, st') =>
    match collectResults env.conv (env.session_inputs session) with
    | .error e => (.error e, st')
    | .ok ins =>
      match collectResults env.conv (env.session_outputs session) with
      | .error e => (.error e, st')
      | .ok outs => (.ok { path := path, inputs := ins, outputs := outs }, st')

/-! ## Concrete fixtures (used by witnesses and counterexamples) -/

/-- A concrete content address with declared length 4. -/
def wPath : Path := { value := 1, len := 4 }

/-- A consistent byte stream for `wPath`: length word 4, then 4 payload bytes. -/
def wStream : ByteStream := { read_u64 := .ok 4, read_to_end := .ok [9, 9, 9, 9] }

/-- A stream whose length word (3) contradicts `wPath.len` (4). -/
def badStream : ByteStream :=
  { read_u64 := .ok 3, read_to_end := .ok [9, 9, 9] }

/-- A resolved configuration fixture. -/
def wConfig : ClientConfig :=
  { optimization_level := 1, number_threads := 1, log_level := 0 }

/-- Happy-path collaborators: fetching `wPath` yields the consistent
stream; building a 4-byte buffer yields handle 42; handles declare one
input and one output slot; the forward pass fails on an empty input
list, yields two raw outputs on a singleton input list and three
otherwise; descriptor conversion always succeeds. -/
def wEnv : ClientEnv :=
  { config := wConfig
    get_raw := fun p => if p = wPath then .ok wStream else .error .transportError
    build := fun buf _ => if buf.length = 4 then .ok 42 else .error .engineBuildError
    session_inputs := fun _ => [{ name := "x", dims := [none], ty := 1 }]
    session_outputs := fun _ => [{ name := "y", dims := [some 1], ty := 1 }]
    run := fun _ ins =>
      if ins.length = 0 then .error .engineRunError
      else if ins.length = 1 then .ok [[10], [20]]
      else .ok [[10], [20], [30]]
    conv := fun d => .ok { name := d.name, dims := [1], ty := d.ty } }

/-- Collaborators whose byte store always fails to fetch. -/
def failEnv : ClientEnv :=
  { wEnv with get_raw := fun _ => .error .transportError }

/-- Collaborators whose byte store returns the inconsistent stream. -/
def badEnv : ClientEnv :=
  { wEnv with get_raw := fun _ => .ok badStream }

/-- A session table already holding handle 7 for `wPath`. -/
def wTable : SessionTable := [(wPath, 7)]

/-- A model descriptor at `wPath` declaring three outputs A, B, C. -/
def wModel3 : Model :=
  { path := wPath
    inputs := [{ name := "x", dims := [1], ty := 1 }]
    outputs := [{ name := "A", dims := [1], ty := 1 },
                { name := "B", dims := [1], ty := 1 },
                { name := "C", dims := [1], ty := 1 }] }

/-- An input tensor fixture. -/
def tIn : Tensor := { name := "x", data := .F32 [1] }

/-! ## Structural lemmas about `load_session` -/

/-- On a table hit, `load_session` returns the stored handle and leaves
the table untouched. -/
theorem load_session_hit (env : ClientEnv) (path : Path) (st : SessionTable)
    (s : Session) (h : lookupTable st path = some s) :
    load_session env path st = (.ok s, st) := by
  unfold load_session
  rw [h]

/-- Case analysis of one `load_session` call: a hit returning the stored
handle with the table unchanged, a failure with the table unchanged, or
a successful miss inserting exactly the returned handle. -/
theorem load_session_spec (env : ClientEnv) (path : Path) (st : SessionTable) :
    (∃ s, lookupTable st path = some s ∧ load_session env path st = (.ok s, st)) ∨
    (∃ e, load_session env path st = (.error e, st)) ∨
    (∃ s, lookupTable st path = none ∧
      load_session env path st = (.ok s, insertTable st path s)) := by
  cases hl : lookupTable st path with
  | some s => exact Or.inl ⟨s, rfl, load_session_hit env path st s hl⟩
  | none =>
    cases hg : env.get_raw path with
    | error e =>
      refine Or.inr (Or.inl ⟨e, ?_⟩)
      simp [load_session, hl, hg]
    | ok recv =>
      cases hr : recv.read_u64 with
      | error e =>
        refine Or.inr (Or.inl ⟨e, ?_⟩)
        simp [load_session, hl, hg, hr]
      | ok len =>
        by_cases hlen : len = path.len
        case neg =>
          refine Or.inr (Or.inl ⟨.integrityError, ?_⟩)
          simp [load_session, hl, hg, hr, hlen]
        case pos =>
          cases hb : recv.read_to_end with
          | error e =>
            refine Or.inr (Or.inl ⟨e, ?_⟩)
            simp [load_session, hl, hg, hr, hlen, hb]
          | ok buf =>
            by_cases hbl : buf.length = path.len
            case neg =>
              refine Or.inr (Or.inl ⟨.lengthAssertPanic, ?_⟩)
              simp [load_session, hl, hg, hr, hlen, hb, hbl]
            case pos =>
              cases hbd : env.build buf env.config with
              | error e =>
                refine Or.inr (Or.inl ⟨e, ?_⟩)
                simp [load_session, hl, hg, hr, hlen, hb, hbl, hbd]
              | ok s =>
                refine Or.inr (Or.inr ⟨s, rfl, ?_⟩)
                simp [load_session, hl, hg, hr, hlen, hb, hbl, hbd]

/-- After a successful `load_session`, the resulting table maps the path
to the returned handle. -/
theorem load_session_ok_lookup (env : ClientEnv) (path : Path)
    (st st' : SessionTable) (s : Session)
    (h : load_session env path st = (.ok s, st')) :
    lookupTable st' path = some s := by
  rcases load_session_spec env path st with ⟨s', hl, he⟩ | ⟨e, he⟩ | ⟨s', hl, he⟩
  · rw [he] at h
    simp only [Prod.mk.injEq, Except.ok.injEq] at h
    rw [← h.2, ← h.1]
    exact hl
  · rw [he] at h
    simp at h
  · rw [he] at h
    simp only [Prod.mk.injEq, Except.ok.injEq] at h
    rw [← h.2, ← h.1]
    simp [insertTable, lookupTable]

/-- An entry present in the table survives any later `load_session`
call, for any path: entries are never removed or replaced. -/
theorem lookupTable_load_session_stable (env : ClientEnv) (q : Path)
    (st : SessionTable) (p : Path) (s : Session)
    (h : lookupTable st p = some s) :
    lookupTable (load_session_state env q st) p = some s := by
  unfold load_session_state
  rcases load_session_spec env q st with ⟨s', _, he⟩ | ⟨e, he⟩ | ⟨s', hq, he⟩
  · rw [he]; exact h
  · rw [he]; exact h
  · rw [he]
    show lookupTable (insertTable st q s') p = some s
    unfold insertTable lookupTable
    by_cases hqp : q = p
    · subst hqp
      rw [h] at hq
      cases hq
    · rw [if_neg hqp]
      exact h

/-- An entry present in the table survives any sequence of later
`load_session` calls. -/
theorem lookupTable_run_calls_stable (env : ClientEnv) (st : SessionTable)
    (p : Path) (s : Session) (calls : List Path)
    (h : lookupTable st p = some s) :
    lookupTable (run_calls env st calls) p = some s := by
  induction calls generalizing st with
  | nil => exact h
  | cons q qs ih =>
    show lookupTable (run_calls env (load_session_state env q st) qs) p = some s
    exact ih _ (lookupTable_load_session_stable env q st p s h)

/-! ## Claim theorems -/

/-- C2: if the miss path of `load_session` fails at any step — fetch,
length validation, read, or engine build — then no entry is inserted
for that address, the session table is left exactly as it was before
the attempt, and the error propagates to the caller. -/
theorem load_session_failure_frame (env : ClientEnv) (path : Path)
    (st st' : SessionTable) (e : ClientError)
    (h : load_session env path st = (.error e, st')) :
    st' = st ∧ lookupTable st' path = lookupTable st path := by
  rcases load_session_spec env path st with ⟨s, _, he⟩ | ⟨e', he⟩ | ⟨s, _, he⟩
  · rw [he] at h
    exact absurd (congrArg Prod.fst h) (by simp)
  · rw [he] at h
    have h2 : st = st' := congrArg Prod.snd h
    exact ⟨h2.symm, by rw [h2]⟩
  · rw [he] at h
    exact absurd (congrArg Prod.fst h) (by simp)

/-- C2 witness: with a byte store that always fails, loading `wPath`
into the empty table fails and leaves the table empty. -/
theorem load_session_failure_frame_witness :
    load_session failEnv wPath [] = (.error .transportError, []) ∧
    (([] : SessionTable) = [] ∧
      lookupTable [] wPath = lookupTable ([] : SessionTable) wPath) :=
  ⟨rfl, load_session_failure_frame failEnv wPath [] [] .transportError rfl⟩

/-- C3: once a `load_session` call for an address succeeds, every later
call with the same address — after any interleaved sequence of calls —
finds the entry present, returns the same shared handle with the table
unchanged, and performs zero byte-store fetches and zero engine builds,
so at most one handle is ever inserted for that address. -/
theorem load_session_idempotent (env : ClientEnv) (path : Path)
    (st st₁ : SessionTable) (s : Session) (calls : List Path)
    (h : load_session env path st = (.ok s, st₁)) :
    load_session env path (run_calls env st₁ calls) =
        (.ok s, run_calls env st₁ calls) ∧
    load_session_fetches path (run_calls env st₁ calls) = 0 ∧
    build_input env path (run_calls env st₁ calls) = none := by
  have h1 := load_session_ok_lookup env path st st₁ s h
  have h2 := lookupTable_run_calls_stable env st₁ path s calls h1
  refine ⟨load_session_hit env path _ s h2, ?_, ?_⟩
  · unfold load_session_fetches
    rw [h2]
  · unfold build_input
    rw [h2]

/-- C3 witness: after loading `wPath` into the empty table (handle 42),
an immediate second call hits the cache with no fetch and no build. -/
theorem load_session_idempotent_witness :
    load_session wEnv wPath [] = (.ok 42, [(wPath, 42)]) ∧
    (load_session wEnv wPath (run_calls wEnv [(wPath, 42)] []) =
        (.ok 42, run_calls wEnv [(wPath, 42)] []) ∧
      load_session_fetches wPath (run_calls wEnv [(wPath, 42)] []) = 0 ∧
      build_input wEnv wPath (run_calls wEnv [(wPath, 42)] []) = none) :=
  ⟨rfl, load_session_idempotent wEnv wPath [] [(wPath, 42)] 42 [] rfl⟩

/-- C9: with the table mutex held across the whole `load_session` body,
concurrent calls execute as an interleaving of atomic calls; for a
given address the first call (no entry present) performs the single
fetch-and-build, and every later call, after any interleaving of
further calls, observes the completed entry and performs no fetch and
no build — no two builds for the same address ever race. -/
theorem load_session_single_builder (env : ClientEnv) (path : Path)
    (st st₁ : SessionTable) (s : Session) (calls : List Path)
    (h0 : lookupTable st path = none)
    (h : load_session env path st = (.ok s, st₁)) :
    load_session_fetches path st = 1 ∧
    load_session env path (run_calls env st₁ calls) =
        (.ok s, run_calls env st₁ calls) ∧
    load_session_fetches path (run_calls env st₁ calls) = 0 ∧
    build_input env path (run_calls env st₁ calls) = none := by
  have h1 := load_session_ok_lookup env path st st₁ s h
  have h2 := lookupTable_run_calls_stable env st₁ path s calls h1
  refine ⟨?_, load_session_hit env path _ s h2, ?_, ?_⟩
  · unfold load_session_fetches
    rw [h0]
  · unfold load_session_fetches
    rw [h2]
  · unfold build_input
    rw [h2]

/-- C9 witness: the first loader of `wPath` performs the one fetch and
build; the next call hits the completed entry. -/
theorem load_session_single_builder_witness :
    lookupTable [] wPath = none ∧
    load_session wEnv wPath [] = (.ok 42, [(wPath, 42)]) ∧
    (load_session_fetches wPath [] = 1 ∧
      load_session wEnv wPath (run_calls wEnv [(wPath, 42)] []) =
          (.ok 42, run_calls wEnv [(wPath, 42)] []) ∧
      load_session_fetches wPath (run_calls wEnv [(wPath, 42)] []) = 0 ∧
      build_input wEnv wPath (run_calls wEnv [(wPath, 42)] []) = none) :=
  ⟨rfl, rfl, load_session_single_builder wEnv wPath [] [(wPath, 42)] 42 [] rfl rfl⟩

/-- C4: when the u64 length word read from the byte-store stream
differs from the address's declared length, `load_session` fails with
the integrity error, the builder is never reached, and the session
table is unchanged. -/
theorem load_session_integrity_on_mismatch (env : ClientEnv)
    (path : Path) (st : SessionTable) (recv : ByteStream) (len : Nat)
    (h0 : lookupTable st path = none)
    (hg : env.get_raw path = .ok recv)
    (hr : recv.read_u64 = .ok len)
    (hne : len ≠ path.len) :
    load_session env path st = (.error .integrityError, st) ∧
    build_input env path st = none := by
  constructor
  · simp [load_session, h0, hg, hr, hne]
  · simp [build_input, h0, hg, hr, hne]

/-- C4 witness: the inconsistent stream (length word 3 against declared
length 4) makes the load fail with the integrity error and leaves the
empty table empty, with no build. -/
theorem load_session_integrity_on_mismatch_witness :
    lookupTable [] wPath = none ∧
    badEnv.get_raw wPath = .ok badStream ∧
    badStream.read_u64 = .ok 3 ∧
    (3 : Nat) ≠ wPath.len ∧
    (load_session badEnv wPath [] = (.error .integrityError, []) ∧
      build_input badEnv wPath [] = none) :=
  ⟨rfl, rfl, rfl, by decide,
    load_session_integrity_on_mismatch badEnv wPath [] badStream 3 rfl rfl rfl
      (by decide)⟩

/-- C5: if the byte-store stream is consistent — the payload read to
completion has exactly as many bytes as its u64 length word declares —
then the defensive length assertion in `load_session` never fires, and
whenever the engine builder is reached the byte buffer handed to it has
length exactly `path.len`. -/
theorem load_session_buffer_length_exact (env : ClientEnv) (path : Path)
    (st : SessionTable)
    (hwf : ∀ recv, env.get_raw path = .ok recv →
      ∀ l buf, recv.read_u64 = .ok l → recv.read_to_end = .ok buf →
        buf.length = l) :
    assert_fires env path st = false ∧
    ∀ buf, build_input env path st = some buf → buf.length = path.len := by
  cases hl : lookupTable st path with
  | some s => simp [assert_fires, build_input, hl]
  | none =>
    cases hg : env.get_raw path with
    | error e => simp [assert_fires, build_input, hl, hg]
    | ok recv =>
      cases hr : recv.read_u64 with
      | error e => simp [assert_fires, build_input, hl, hg, hr]
      | ok len =>
        by_cases hlen : len = path.len
        case neg => simp [assert_fires, build_input, hl, hg, hr, hlen]
        case pos =>
          cases hb : recv.read_to_end with
          | error e => simp [assert_fires, build_input, hl, hg, hr, hlen, hb]
          | ok buf =>
            have hbl : buf.length = len := hwf recv hg len buf hr hb
            simp [assert_fires, build_input, hl, hg, hr, hlen, hb, hbl]

/-- C5 witness: the consistent stream fixture satisfies the
well-formedness hypothesis, so the assertion does not fire on the
cold-load of `wPath` and any buffer reaching the builder has length 4. -/
theorem load_session_buffer_length_exact_witness :
    (∀ recv, wEnv.get_raw wPath = .ok recv →
      ∀ l buf, recv.read_u64 = .ok l → recv.read_to_end = .ok buf →
        buf.length = l) ∧
    (assert_fires wEnv wPath [] = false ∧
      ∀ buf, build_input wEnv wPath [] = some buf → buf.length = wPath.len) := by
  have hwf : ∀ recv, wEnv.get_raw wPath = .ok recv →
      ∀ l buf, recv.read_u64 = .ok l → recv.read_to_end = .ok buf →
        buf.length = l := by
    intro recv h l buf h1 h2
    have hrecv : wStream = recv := Except.ok.inj h
    rw [← hrecv] at h1 h2
    have hl : (4 : Nat) = l := Except.ok.inj h1
    have hb : ([9, 9, 9, 9] : List Nat) = buf := Except.ok.inj h2
    rw [← hl, ← hb]
    rfl
  exact ⟨hwf, load_session_buffer_length_exact wEnv wPath [] hwf⟩

/-- C1 counterexample: with handle 7 cached for `wPath` and the engine
returning two raw outputs against the three declared outputs of
`wModel3`, `call_raw` does not fail at all: it returns two tensors
(partial results, silently truncated by the positional zip), refuting
the claimed failure with a count-mismatch error. -/
theorem call_raw_count_mismatch_counterexample :
    wModel3.outputs.length = 3 ∧
    wEnv.run 7 [tIn] = .ok [[10], [20]] ∧
    call_raw wEnv wModel3 [tIn] wTable =
      (.ok [{ name := "A", data := .F32 [10] },
            { name := "B", data := .F32 [20] }], wTable) :=
  ⟨rfl, rfl, rfl⟩

/-- C1 (amended): `call_raw` performs no output-count check; when the
number of raw outputs differs from the number of declared output
descriptors, the call still succeeds and returns as many tensors as the
shorter of the two sequences, silently dropping the unmatched items. -/
theorem call_raw_truncates_on_count_mismatch (env : ClientEnv)
    (model : Model) (inputs : List Tensor) (st st' : SessionTable)
    (session : Session) (raw : List RawOutput)
    (hs : load_session env model.path st = (.ok session, st'))
    (hr : env.run session inputs = .ok raw)
    (_hne : raw.length ≠ model.outputs.length) :
    ∃ ts, call_raw env model inputs st = (.ok ts, st') ∧
      ts.length = min model.outputs.length raw.length := by
  refine ⟨(model.outputs.zip raw).map fun po =>
    { name := po.1.name, data := DynamicTensorData.F32 po.2 }, ?_, ?_⟩
  · simp only [call_raw, hs, hr]
  · simp [List.length_map, List.length_zip]

/-- C1 (amended) witness: the concrete mismatched run (two raw outputs,
three descriptors) returns exactly two tensors. -/
theorem call_raw_truncates_on_count_mismatch_witness :
    load_session wEnv wModel3.path wTable = (.ok 7, wTable) ∧
    wEnv.run 7 [tIn] = .ok [[10], [20]] ∧
    ([[10], [20]] : List RawOutput).length ≠ wModel3.outputs.length ∧
    ∃ ts, call_raw wEnv wModel3 [tIn] wTable = (.ok ts, wTable) ∧
      ts.length = min wModel3.outputs.length ([[10], [20]] : List RawOutput).length :=
  ⟨rfl, rfl, by decide,
    call_raw_truncates_on_count_mismatch wEnv wModel3 [tIn] wTable wTable 7
      [[10], [20]] rfl rfl (by decide)⟩

/-- C6: when the raw output count equals the declared output count,
`call_raw` returns one tensor per declared output in the same order:
the i-th tensor carries the i-th descriptor's name and the i-th raw
output as its (F32) data. -/
theorem call_raw_output_order (env : ClientEnv) (model : Model)
    (inputs : List Tensor) (st st' : SessionTable) (session : Session)
    (raw : List RawOutput) (ts : List Tensor)
    (hs : load_session env model.path st = (.ok session, st'))
    (hr : env.run session inputs = .ok raw)
    (hlen : raw.length = model.outputs.length)
    (hts : call_raw env model inputs st = (.ok ts, st')) :
    ts.length = model.outputs.length ∧
    ∀ i (h1 : i < model.outputs.length) (h2 : i < raw.length)
      (h3 : i < ts.length),
      (ts.get ⟨i, h3⟩).name = (model.outputs.get ⟨i, h1⟩).name ∧
      (ts.get ⟨i, h3⟩).data = .F32 (raw.get ⟨i, h2⟩) := by
  have hcr : call_raw env model inputs st =
      (.ok ((model.outputs.zip raw).map fun po =>
        { name := po.1.name, data := DynamicTensorData.F32 po.2 }), st') := by
    simp only [call_raw, hs, hr]
  rw [hcr] at hts
  have hts' : ((model.outputs.zip raw).map fun po =>
      ({ name := po.1.name, data := DynamicTensorData.F32 po.2 } : Tensor)) = ts :=
    Except.ok.inj (congrArg Prod.fst hts)
  subst hts'
  constructor
  · simp [List.length_map, List.length_zip, hlen]
  · intro i h1 h2 h3
    constructor
    · simp [List.get_eq_getElem, List.getElem_map, List.getElem_zip]
    · simp [List.get_eq_getElem, List.getElem_map, List.getElem_zip]

/-- C6 witness: three raw outputs against the three declared outputs of
`wModel3` come back named A, B, C in order with the matching data. -/
theorem call_raw_output_order_witness :
    load_session wEnv wModel3.path wTable = (.ok 7, wTable) ∧
    wEnv.run 7 [tIn, tIn] = .ok [[10], [20], [30]] ∧
    ([[10], [20], [30]] : List RawOutput).length = wModel3.outputs.length ∧
    call_raw wEnv wModel3 [tIn, tIn] wTable =
      (.ok [{ name := "A", data := .F32 [10] },
            { name := "B", data := .F32 [20] },
            { name := "C", data := .F32 [30] }], wTable) ∧
    (([{ name := "A", data := .F32 [10] },
       { name := "B", data := .F32 [20] },
       { name := "C", data := .F32 [30] }] : List Tensor).length =
        wModel3.outputs.length ∧
      ∀ i (h1 : i < wModel3.outputs.length)
        (h2 : i < ([[10], [20], [30]] : List RawOutput).length)
        (h3 : i < ([{ name := "A", data := .F32 [10] },
                    { name := "B", data := .F32 [20] },
                    { name := "C", data := .F32 [30] }] : List Tensor).length),
        (([{ name := "A", data := .F32 [10] },
           { name := "B", data := .F32 [20] },
           { name := "C", data := .F32 [30] }] : List Tensor).get ⟨i, h3⟩).name =
            (wModel3.outputs.get ⟨i, h1⟩).name ∧
        (([{ name := "A", data := .F32 [10] },
           { name := "B", data := .F32 [20] },
           { name := "C", data := .F32 [30] }] : List Tensor).get ⟨i, h3⟩).data =
            .F32 (([[10], [20], [30]] : List RawOutput).get ⟨i, h2⟩)) :=
  ⟨rfl, rfl, rfl, rfl,
    call_raw_output_order wEnv wModel3 [tIn, tIn] wTable wTable 7
      [[10], [20], [30]] _ rfl rfl rfl rfl⟩

/-- C8: with the handle already cached for the model's address,
`call_raw` never changes the session table — the cached handle is
neither removed nor replaced — an engine run failure fails only that
call, and a subsequent call whose run succeeds uses the same cached
handle and succeeds. -/
theorem call_raw_run_failure_isolated (env : ClientEnv) (model : Model)
    (st : SessionTable) (s : Session)
    (hc : lookupTable st model.path = some s) :
    (∀ inputs, (call_raw env model inputs st).2 = st) ∧
    (∀ inputs e, env.run s inputs = .error e →
      call_raw env model inputs st = (.error e, st)) ∧
    (∀ inputs raw, env.run s inputs = .ok raw →
      call_raw env model inputs st =
        (.ok ((model.outputs.zip raw).map fun po =>
          { name := po.1.name, data := DynamicTensorData.F32 po.2 }), st)) := by
  have hload := load_session_hit env model.path st s hc
  refine ⟨?_, ?_, ?_⟩
  · intro inputs
    cases hrun : env.run s inputs with
    | error e => simp [call_raw, hload, hrun]
    | ok raw => simp [call_raw, hload, hrun]
  · intro inputs e hrun
    simp [call_raw, hload, hrun]
  · intro inputs raw hrun
    simp [call_raw, hload, hrun]

/-- C8 witness: with handle 7 cached for `wPath`, the failing empty-input
run errors without touching the table and the following one-input run
succeeds on the same handle. -/
theorem call_raw_run_failure_isolated_witness :
    lookupTable wTable wModel3.path = some 7 ∧
    ((∀ inputs, (call_raw wEnv wModel3 inputs wTable).2 = wTable) ∧
      (∀ inputs e, wEnv.run 7 inputs = .error e →
        call_raw wEnv wModel3 inputs wTable = (.error e, wTable)) ∧
      (∀ inputs raw, wEnv.run 7 inputs = .ok raw →
        call_raw wEnv wModel3 inputs wTable =
          (.ok ((wModel3.outputs.zip raw).map fun po =>
            { name := po.1.name, data := DynamicTensorData.F32 po.2 }), wTable))) :=
  ⟨rfl, call_raw_run_failure_isolated wEnv wModel3 wTable 7 rfl⟩

/-- C10: every tensor returned by a successful `call_raw` carries
32-bit-float data: the dispatcher requests `f32`-typed raw outputs from
the engine and wraps each one with the `F32` constructor, regardless of
the element types the model's output descriptors declare. -/
theorem call_raw_outputs_all_f32 (env : ClientEnv) (model : Model)
    (inputs : List Tensor) (st st' : SessionTable) (ts : List Tensor)
    (h : call_raw env model inputs st = (.ok ts, st')) :
    ∀ t ∈ ts, ∃ a, t.data = .F32 a := by
  intro t ht
  cases hl : load_session env model.path st with
  | mk fst snd =>
    cases fst with
    | error e => simp [call_raw, hl] at h
    | ok session =>
      cases hrun : env.run session inputs with
      | error e => simp [call_raw, hl, hrun] at h
      | ok raw =>
        simp only [call_raw, hl, hrun, Prod.mk.injEq, Except.ok.injEq] at h
        rw [← h.1] at ht
        obtain ⟨po, hpo, hfo⟩ := List.mem_map.mp ht
        exact ⟨po.2, by rw [← hfo]⟩

/-- C10 witness: the two tensors of the concrete successful call both
carry F32 data. -/
theorem call_raw_outputs_all_f32_witness :
    call_raw wEnv wModel3 [tIn] wTable =
      (.ok [{ name := "A", data := .F32 [10] },
            { name := "B", data := .F32 [20] }], wTable) ∧
    ∀ t ∈ ([{ name := "A", data := .F32 [10] },
            { name := "B", data := .F32 [20] }] : List Tensor),
      ∃ a, t.data = .F32 a :=
  ⟨rfl, call_raw_outputs_all_f32 wEnv wModel3 [tIn] wTable wTable _ rfl⟩

/-- `collectResults` preserves length on success. -/
theorem collectResults_ok_length
    (conv : NativeDescriptor → Except ClientError TensorDescriptor)
    (l : List NativeDescriptor) (l' : List TensorDescriptor)
    (h : collectResults conv l = .ok l') : l'.length = l.length := by
  induction l generalizing l' with
  | nil =>
    simp only [collectResults, Except.ok.injEq] at h
    rw [← h]
    rfl
  | cons d ds ih =>
    cases hc : conv d with
    | error e => simp [collectResults, hc] at h
    | ok t =>
      cases hcs : collectResults conv ds with
      | error e => simp [collectResults, hc, hcs] at h
      | ok ts =>
        simp only [collectResults, hc, hcs, Except.ok.injEq] at h
        rw [← h]
        simp [ih ts hcs]

/-- On success, `collectResults` converts slotwise and in order: the
i-th result is the conversion of the i-th argument. -/
theorem collectResults_ok_get
    (conv : NativeDescriptor → Except ClientError TensorDescriptor)
    (l : List NativeDescriptor) (l' : List TensorDescriptor)
    (h : collectResults conv l = .ok l') :
    ∀ i (hi : i < l.length) (hi' : i < l'.length),
      conv (l.get ⟨i, hi⟩) = .ok (l'.get ⟨i, hi'⟩) := by
  induction l generalizing l' with
  | nil =>
    intro i hi
    exact absurd hi (Nat.not_lt_zero i)
  | cons d ds ih =>
    cases hc : conv d with
    | error e => simp [collectResults, hc] at h
    | ok t =>
      cases hcs : collectResults conv ds with
      | error e => simp [collectResults, hc, hcs] at h
      | ok ts =>
        simp only [collectResults, hc, hcs, Except.ok.injEq] at h
        subst h
        intro i hi hi'
        cases i with
        | zero => simpa using hc
        | succ n =>
          exact ih ts hcs n (Nat.lt_of_succ_lt_succ hi)
            (Nat.lt_of_succ_lt_succ hi')

/-- If any slot fails to convert, `collectResults` fails. -/
theorem collectResults_error_of_mem
    (conv : NativeDescriptor → Except ClientError TensorDescriptor)
    (l : List NativeDescriptor) (d : NativeDescriptor) (e : ClientError)
    (hd : d ∈ l) (he : conv d = .error e) :
    ∃ e', collectResults conv l = .error e' := by
  induction l with
  | nil => cases hd
  | cons a as ih =>
    rcases List.mem_cons.mp hd with h1 | h2
    · subst h1
      exact ⟨e, by simp [collectResults, he]⟩
    · cases hc : conv a with
      | error e2 => exact ⟨e2, by simp [collectResults, hc]⟩
      | ok t =>
        obtain ⟨e', he'⟩ := ih h2
        exact ⟨e', by simp [collectResults, hc, he']⟩

/-- C7: once the cached (or freshly built) handle is obtained,
`load_model` returns a descriptor whose address equals the argument
address and whose input and output sequences are the slotwise, in-order
conversions of the handle's declared inputs and outputs; and if any
slot fails to convert, `load_model` fails and returns no descriptor. -/
theorem load_model_converts_in_order (env : ClientEnv) (path : Path)
    (st st' : SessionTable) (session : Session)
    (hs : load_session env path st = (.ok session, st')) :
    (∀ ins outs,
      collectResults env.conv (env.session_inputs session) = .ok ins →
      collectResults env.conv (env.session_outputs session) = .ok outs →
      load_model env path st =
          (.ok { path := path, inputs := ins, outputs := outs }, st') ∧
        ins.length = (env.session_inputs session).length ∧
        outs.length = (env.session_outputs session).length ∧
        (∀ i (hi : i < (env.session_inputs session).length)
          (hi' : i < ins.length),
          env.conv ((env.session_inputs session).get ⟨i, hi⟩) =
            .ok (ins.get ⟨i, hi'⟩)) ∧
        (∀ i (hi : i < (env.session_outputs session).length)
          (hi' : i < outs.length),
          env.conv ((env.session_outputs session).get ⟨i, hi⟩) =
            .ok (outs.get ⟨i, hi'⟩))) ∧
    (∀ d e, d ∈ env.session_inputs session ++ env.session_outputs session →
      env.conv d = .error e →
      ∃ e', load_model env path st = (.error e', st')) := by
  constructor
  · intro ins outs hin hout
    refine ⟨by simp only [load_model, hs, hin, hout], ?_, ?_, ?_, ?_⟩
    · exact collectResults_ok_length env.conv _ ins hin
    · exact collectResults_ok_length env.conv _ outs hout
    · exact collectResults_ok_get env.conv _ ins hin
    · exact collectResults_ok_get env.conv _ outs hout
  · intro d e hd he
    rcases List.mem_append.mp hd with hmem | hmem
    · obtain ⟨e', he'⟩ :=
        collectResults_error_of_mem env.conv (env.session_inputs session) d e hmem he
      exact ⟨e', by simp only [load_model, hs, he']⟩
    · cases hin : collectResults env.conv (env.session_inputs session) with
      | error e1 => exact ⟨e1, by simp only [load_model, hs, hin]⟩
      | ok ins =>
        obtain ⟨e', he'⟩ :=
          collectResults_error_of_mem env.conv (env.session_outputs session) d e hmem he
        exact ⟨e', by simp only [load_model, hs, hin, he']⟩

/-- C7 witness: with handle 7 cached for `wPath` and the fixture
conversion, `load_model` yields the in-order converted descriptor. -/
theorem load_model_converts_in_order_witness :
    load_session wEnv wPath wTable = (.ok 7, wTable) ∧
    ((∀ ins outs,
      collectResults wEnv.conv (wEnv.session_inputs 7) = .ok ins →
      collectResults wEnv.conv (wEnv.session_outputs 7) = .ok outs →
      load_model wEnv wPath wTable =
          (.ok { path := wPath, inputs := ins, outputs := outs }, wTable) ∧
        ins.length = (wEnv.session_inputs 7).length ∧
        outs.length = (wEnv.session_outputs 7).length ∧
        (∀ i (hi : i < (wEnv.session_inputs 7).length)
          (hi' : i < ins.length),
          wEnv.conv ((wEnv.session_inputs 7).get ⟨i, hi⟩) =
            .ok (ins.get ⟨i, hi'⟩)) ∧
        (∀ i (hi : i < (wEnv.session_outputs 7).length)
          (hi' : i < outs.length),
          wEnv.conv ((wEnv.session_outputs 7).get ⟨i, hi⟩) =
            .ok (outs.get ⟨i, hi'⟩))) ∧
    (∀ d e, d ∈ wEnv.session_inputs 7 ++ wEnv.session_outputs 7 →
      wEnv.conv d = .error e →
      ∃ e', load_model wEnv wPath wTable = (.error e', wTable))) :=
  ⟨rfl, load_model_converts_in_order wEnv wPath wTable wTable 7 rfl⟩

end Ipnis
